import Mathlib

/-!
Shallow embedding of the xprompt prompt renderer (src/bin/xprompt.rs, plus
the earlier prototype src/main.rs).  Pure string assembly is translated to
Lean functions; the effectful library calls (repository discovery, head
resolution, the status query, the stash walk, environment lookups) are
modelled by passing their results in explicitly as fields of a `Repository`
or environment structure.  git status bitflags are Nat bitmasks with the
libgit2 bit values.
-/

/- git2::Status bit values (libgit2 git_status_t). -/

def Status.CURRENT : Nat := 0

def Status.INDEX_NEW : Nat := 1

def Status.INDEX_MODIFIED : Nat := 2

def Status.INDEX_DELETED : Nat := 4

def Status.INDEX_RENAMED : Nat := 8

def Status.INDEX_TYPECHANGE : Nat := 16

def Status.WT_NEW : Nat := 128

def Status.WT_MODIFIED : Nat := 256

def Status.WT_DELETED : Nat := 512

def Status.WT_TYPECHANGE : Nat := 1024

def Status.WT_RENAMED : Nat := 2048

def Status.IGNORED : Nat := 16384

def Status.CONFLICTED : Nat := 32768

/-- Predicate from the source: is this status an unversioned file?
`(status & Status::WT_NEW) != Status::CURRENT` -/
def VcsCommand.is_unversioned (status : Nat) : Bool :=
  (status &&& Status.WT_NEW) != Status.CURRENT

/-- Predicate from the source: is this status a modified file (working tree)?
`(status & (WT_DELETED | WT_MODIFIED | WT_RENAMED | WT_TYPECHANGE)) != CURRENT` -/
def VcsCommand.is_working_tree_modified (status : Nat) : Bool :=
  (status &&& (Status.WT_DELETED ||| Status.WT_MODIFIED ||| Status.WT_RENAMED ||| Status.WT_TYPECHANGE))
    != Status.CURRENT

/-- Predicate from the source: is this status a change to the index?
`(status & (INDEX_DELETED | INDEX_MODIFIED | INDEX_NEW | INDEX_RENAMED | INDEX_TYPECHANGE)) != CURRENT` -/
def VcsCommand.is_index_modified (status : Nat) : Bool :=
  (status &&& (Status.INDEX_DELETED ||| Status.INDEX_MODIFIED ||| Status.INDEX_NEW |||
    Status.INDEX_RENAMED ||| Status.INDEX_TYPECHANGE)) != Status.CURRENT

/-- States files in a git repository (or the repository itself) could be in.
The derived Rust `Ord` orders the variants in declaration order. -/
inductive GitFlags
  | Unversioned
  | Modified
  | Added
  | Stashed
deriving DecidableEq, Fintype

/-- The glyph each flag displays as (`GitFlags::val`). -/
def GitFlags.val : GitFlags → String
  | .Unversioned => "?"
  | .Modified => "!"
  | .Added => "+"
  | .Stashed => "$"

/-- Position of each flag in the derived `Ord` (declaration order). -/
def GitFlags.rank : GitFlags → Nat
  | .Unversioned => 0
  | .Modified => 1
  | .Added => 2
  | .Stashed => 3

/-- The four flags listed in the derived order. -/
def GitFlags.canonical : List GitFlags :=
  [GitFlags.Unversioned, GitFlags.Modified, GitFlags.Added, GitFlags.Stashed]

/-- `BTreeSet<GitFlags>` is modelled as a strictly rank-sorted duplicate-free
list; `insertFlag` is `BTreeSet::insert`. -/
def insertFlag (f : GitFlags) : List GitFlags → List GitFlags
  | [] => [f]
  | g :: gs =>
    if f.rank < g.rank then f :: g :: gs
    else if f.rank = g.rank then g :: gs
    else g :: insertFlag f gs

/-- A git object id: a 160-bit number. `git2::Oid` -/
def Oid := Nat

/-- One hex digit, lowercase, as `Oid::to_string` renders it. -/
def hexDigit (n : Nat) : Char :=
  if n < 10 then Char.ofNat (48 + n) else Char.ofNat (87 + n)

/-- `Oid::to_string`: the full 40-character lowercase hex form of the id. -/
def oidToString (oid : Nat) : String :=
  String.mk ((List.range 40).map (fun i => hexDigit (oid / 16 ^ (39 - i) % 16)))

/-- The head reference of a repository (`git2::Reference`), carrying the
results of the calls the source makes on it. -/
structure GitRef where
  is_branch : Bool
  shorthand : Option String
  peel_to_commit : Option Nat

/-- A discovered repository, modelled by the results of the three library
queries the source performs on it: `repo.head()` (None when the head cannot
be resolved, e.g. an unborn branch), `repo.statuses(None)` (None when the
status query fails; otherwise the list of per-entry status bitmasks), and
the stash entries that `repo.stash_foreach` would visit. -/
structure Repository where
  headRef : Option GitRef
  statuses : Option (List Nat)
  stashes : List Nat

/-- `VcsCommand::get_git_branch`: short branch name for a symbolic head,
full commit id hex for a detached head, None when the head is unresolvable. -/
def VcsCommand.get_git_branch (repo : Repository) : Option String :=
  match repo.headRef with
  | some r => if r.is_branch then r.shorthand else r.peel_to_commit.map oidToString
  | none => none

/-- `VcsCommand::is_stashed`: walks the stashes with a callback that records
true and returns false, stopping at the first entry found. -/
def VcsCommand.is_stashed (repo : Repository) : Bool :=
  match repo.stashes with
  | [] => false
  | _ :: _ => true

/-- Body of the for loop in `get_git_flags`: classify one status entry by the
three independent predicates, inserting each matching flag. -/
def flagStep (acc : List GitFlags) (s : Nat) : List GitFlags :=
  let acc1 := if VcsCommand.is_unversioned s then insertFlag GitFlags.Unversioned acc else acc
  let acc2 := if VcsCommand.is_working_tree_modified s then insertFlag GitFlags.Modified acc1 else acc1
  if VcsCommand.is_index_modified s then insertFlag GitFlags.Added acc2 else acc2

/-- `VcsCommand::get_git_flags`: scan every status entry (when the status
query succeeded), then add `Stashed` from the independent stash check. -/
def VcsCommand.get_git_flags (repo : Repository) : List GitFlags :=
  let flags : List GitFlags := []
  let flags := match repo.statuses with
    | some ss => ss.foldl flagStep flags
    | none => flags
  if VcsCommand.is_stashed repo then insertFlag GitFlags.Stashed flags else flags

/-- ansi_term `Style`, restricted to the fields this program uses:
`Color::Fixed(n)` foregrounds and the bold attribute. -/
structure Style where
  foreground : Option Nat
  is_bold : Bool
deriving DecidableEq

/-- The plain (empty) style. -/
def Style.plain : Style := { foreground := none, is_bold := false }

/-- `Color::Fixed(n).bold()` -/
def fixedBold (n : Nat) : Style := { foreground := some n, is_bold := true }

/-- ansi_term `Style::prefix`: the escape sequence turning the style on
(empty for the plain style). -/
def stylePre (s : Style) : String :=
  match s.is_bold, s.foreground with
  | false, none => ""
  | true, none => "\x1b[1m"
  | false, some n => "\x1b[38;5;" ++ Nat.repr n ++ "m"
  | true, some n => "\x1b[1;38;5;" ++ Nat.repr n ++ "m"

/-- ansi_term `Style::suffix`: the reset sequence, empty for the plain style. -/
def styleSuf (s : Style) : String :=
  if s = Style.plain then "" else "\x1b[0m"

/-- ansi_term `Difference`: what must be written between two styled strings. -/
inductive StyleDiff
  | noDifference
  | extraStyles (s : Style)
  | resetDiff

/-- ansi_term `Difference::between`: nothing when equal; a full reset when an
attribute must be turned off; otherwise just the attributes to add. -/
def styleDifference (f n : Style) : StyleDiff :=
  if f = n then StyleDiff.noDifference
  else if (f.is_bold && !n.is_bold) || (f.foreground.isSome && n.foreground.isNone) then
    StyleDiff.resetDiff
  else
    StyleDiff.extraStyles
      { foreground := if n.foreground = f.foreground then none else n.foreground,
        is_bold := n.is_bold && !f.is_bold }

/-- The escape bytes ansi_term writes between two adjacent styled strings. -/
def styleTransition (f n : Style) : String :=
  match styleDifference f n with
  | StyleDiff.noDifference => ""
  | StyleDiff.extraStyles s => stylePre s
  | StyleDiff.resetDiff => "\x1b[0m" ++ stylePre n

/-- Rendering of a single `ANSIString` (`style.paint(text)` displayed alone). -/
def ansiPaint (st : Style) (s : String) : String :=
  stylePre st ++ s ++ styleSuf st

/-- Tail of the `ANSIStrings` rendering: each later string is preceded by the
transition from the previous style. -/
def ansiRenderRest (prev : Style) : List (Style × String) → String
  | [] => ""
  | (s, t) :: rest => styleTransition prev s ++ t ++ ansiRenderRest s rest

/-- ansi_term `ANSIStrings`: first prefix, texts joined by style transitions,
one suffix for the last style. -/
def ansiRender (items : List (Style × String)) : String :=
  match items with
  | [] => ""
  | (s, t) :: rest =>
      stylePre s ++ t ++ ansiRenderRest s rest ++ styleSuf (rest.getLastD (s, t)).1

/-- `BashString` display: the styling control codes are wrapped in the Bash
non-printing markers before and after the payload text. -/
def bashStringRender (style : Style) (s : String) : String :=
  "\\[" ++ stylePre style ++ "\\]" ++ s ++ "\\[" ++ styleSuf style ++ "\\]"

/-- `BashStrings` display: every span writes its wrapped style and its text;
a single wrapped reset follows the last span. -/
def bashStringsRender (items : List (Style × String)) : String :=
  String.join (items.map (fun it => "\\[" ++ stylePre it.1 ++ "\\]" ++ it.2)) ++
    (match items.getLast? with
     | some it => "\\[" ++ styleSuf it.1 ++ "\\]"
     | none => "")

/-- Colors to use for writing output. -/
structure Pallet where
  black : Style
  blue : Style
  cyan : Style
  green : Style
  orange : Style
  purple : Style
  red : Style
  violet : Style
  white : Style
  yellow : Style

/-- `Pallet::default`: the fixed xterm-256 color table of the program. -/
def Pallet.default : Pallet :=
  { black := fixedBold 0
    blue := fixedBold 33
    cyan := fixedBold 37
    green := fixedBold 64
    orange := fixedBold 166
    purple := fixedBold 125
    red := fixedBold 124
    violet := fixedBold 61
    white := fixedBold 15
    yellow := fixedBold 136 }

/-- The joined glyph string of a flag set (`flags.iter().map(val).join("")`). -/
def flagStr (flags : List GitFlags) : String :=
  String.join (flags.map GitFlags.val)

/-- `VcsCommand::write_git_branch`: paints "on " and the branch with
`ANSIStrings` (no Bash markers in vcs mode). -/
def VcsCommand.write_git_branch (pallet : Pallet) (branch : String) : String :=
  ansiRender [(pallet.white, "on "), (pallet.violet, branch)]

/-- `VcsCommand::write_git_status`: paints the bracketed glyph run with
`ANSIStrings` (no Bash markers in vcs mode). -/
def VcsCommand.write_git_status (pallet : Pallet) (flags : List GitFlags) : String :=
  ansiRender [(pallet.blue, " ["), (pallet.blue, flagStr flags), (pallet.blue, "]")]

/-- `VcsCommand::run`: empty output when discovery failed or the branch is
unresolvable; otherwise the branch, followed by the status run when the flag
set is non-empty. -/
def VcsCommand.run (pallet : Pallet) (discovered : Option Repository) : String :=
  match discovered with
  | none => ""
  | some repo =>
    match VcsCommand.get_git_branch repo with
    | some b =>
        VcsCommand.write_git_branch pallet b ++
          (if (VcsCommand.get_git_flags repo).isEmpty then ""
           else VcsCommand.write_git_status pallet (VcsCommand.get_git_flags repo))
    | none => ""

/-- Literal Bash placeholder for the time (`\D{...}`, expanded by Bash). -/
def TIMESTAMP : String := "\\D\x7b%H:%M:%S\x7d"

/-- Literal Bash placeholder for the user name. -/
def USER : String := "\\u"

/-- Literal Bash placeholder for the working directory. -/
def WORKING_DIR : String := "\\w"

/-- Literal Bash placeholder for the host name. -/
def HOST : String := "\\h"

/-- The `ps1` subcommand options. -/
structure Ps1Command where
  path : Option String
  input : String

/-- The callback executable chosen by `write_vcs_callback`: the explicit
`--path` option, else the current executable path when it resolved to a
UTF-8 string, else the hardcoded name "xprompt". -/
def Ps1Command.callback (cmd : Ps1Command) (current_exe : Option String) : String :=
  match cmd.path with
  | some s => s
  | none =>
    match current_exe with
    | some p => p
    | none => "xprompt"

/-- `Ps1Command::write_base_prompt`: a literal `\n` then the seven colorized
placeholder spans as one `BashStrings` run. -/
def Ps1Command.write_base_prompt (pallet : Pallet) : String :=
  "\\n" ++ bashStringsRender [
    (pallet.cyan, TIMESTAMP),
    (pallet.white, " as "),
    (pallet.blue, USER),
    (pallet.white, " at "),
    (pallet.orange, HOST),
    (pallet.white, " in "),
    (pallet.green, WORKING_DIR)]

/-- `Ps1Command::write_vcs_callback`: the command substitution that re-invokes
the tool in vcs mode at each prompt display. -/
def Ps1Command.write_vcs_callback (callback : String) : String :=
  " $(" ++ callback ++ " vcs)"

/-- `Ps1Command::write_command_prompt`: a literal `\n`, the colorized input
glyph, and a trailing space. -/
def Ps1Command.write_command_prompt (pallet : Pallet) (input : String) : String :=
  "\\n" ++ bashStringRender pallet.white input ++ " "

/-- `Ps1Command::run`: base prompt, vcs callback, command prompt. -/
def Ps1Command.run (cmd : Ps1Command) (pallet : Pallet) (current_exe : Option String) : String :=
  Ps1Command.write_base_prompt pallet ++
    Ps1Command.write_vcs_callback (cmd.callback current_exe) ++
    Ps1Command.write_command_prompt pallet cmd.input

/-- `Ps2Command::run`: the fixed yellow continuation glyph as one BashString. -/
def Ps2Command.run (pallet : Pallet) : String :=
  bashStringRender pallet.yellow "-> "

/-- Modelled from the spec: the static `init.bash` shell snippet emitted by
the init mode is not under src/ (only `include_str!("init.bash")` refers to
it); the spec treats it as an opaque static payload, so it is modelled as an
unspecified fixed constant string. -/
def initBashSnippet : String := "xprompt init snippet"

/-- The parsed subcommand of the xprompt binary. -/
inductive SubCommand
  | init : SubCommand
  | ps1 : Ps1Command → SubCommand
  | ps2 : SubCommand
  | vcs : SubCommand

/-- The ambient process state the xprompt binary can observe: the result of
`Repository::discover(".")` from the working directory, and the result of
resolving the path of the running executable. -/
structure ProcEnv where
  discovered : Option Repository
  current_exe : Option String

/-- `main` of the xprompt binary, after successful argument parsing: renders
the output of the selected mode, prints it, and falls off the end of main
(exit status 0). The pair is (stdout, exit status). -/
def xprompt_main (cmd : SubCommand) (env : ProcEnv) : String × Nat :=
  let buf := match cmd with
    | SubCommand.init => initBashSnippet
    | SubCommand.ps1 c => c.run Pallet.default env.current_exe
    | SubCommand.ps2 => Ps2Command.run Pallet.default
    | SubCommand.vcs => VcsCommand.run Pallet.default env.discovered
  (buf, 0)

/-- Outcome of one run of the prototype prompter binary (src/main.rs). -/
inductive ProcResult
  | ok (stdout : String)
  | exited (code : Nat)
  | panicked

/-- The ambient process state the prompter binary observes. -/
structure PrompterEnv where
  discovered : Option Repository
  timestamp : String
  user : Option String
  host : Option String
  cwd : Option String

/-- The prompt line printed by the prompter binary on its success path. -/
def prompter_output (env : PrompterEnv) (cur_path : String) : String :=
  let p := Pallet.default
  ansiPaint p.cyan env.timestamp ++ " " ++ ansiPaint p.white "as" ++ " " ++
    ansiPaint p.blue (env.user.getD "unknown") ++ " " ++ ansiPaint p.white "at" ++ " " ++
    ansiPaint p.orange (env.host.getD "unknown") ++ " " ++ ansiPaint p.white "in" ++ " " ++
    ansiPaint p.green cur_path ++ " " ++ ansiPaint p.white "in" ++ " " ++
    ansiPaint p.violet "[git!]" ++ "\n"

/-- `main` of the prototype prompter binary (src/main.rs), after successful
argument parsing: exits with status 1 when `Repository::discover` fails,
panics when `repo.statuses(None).unwrap()` hits an error, else prints the
prompt line and exits 0. -/
def prompter_main (pathArg : Option String) (env : PrompterEnv) : ProcResult :=
  let cur_path := match pathArg with
    | some p => p
    | none => env.cwd.getD "~"
  match env.discovered with
  | none => ProcResult.exited 1
  | some repo =>
    match repo.statuses with
    | none => ProcResult.panicked
    | some _ => ProcResult.ok (prompter_output env cur_path)

/-- State of the Bash non-printing-marker scanner: outside a marker region,
outside having just seen a backslash, inside a region, inside having just
seen a backslash, or failed (a styling escape byte seen outside a region). -/
inductive EscState
  | out
  | outB
  | ins
  | insB
  | bad
deriving DecidableEq

/-- One step of the marker scanner. -/
def escStep : EscState → Char → EscState
  | EscState.out, c =>
      if c = '\\' then EscState.outB
      else if c = '\x1b' then EscState.bad else EscState.out
  | EscState.outB, c =>
      if c = '[' then EscState.ins
      else if c = '\\' then EscState.outB
      else if c = '\x1b' then EscState.bad else EscState.out
  | EscState.ins, c => if c = '\\' then EscState.insB else EscState.ins
  | EscState.insB, c =>
      if c = ']' then EscState.out
      else if c = '\\' then EscState.insB else EscState.ins
  | EscState.bad, _ => EscState.bad

/-- Run the marker scanner over a character list. A string whose scan from
`out` ends in `out` has every escape byte inside a paired region delimited by
the two-character markers backslash-open-bracket and backslash-close-bracket. -/
def escScan (l : List Char) (s : EscState) : EscState :=
  l.foldl escStep s

/-- A string containing no backslash character. -/
def noBackslash (s : String) : Prop :=
  ∀ c ∈ s.data, c ≠ '\\'

/-- A string in which neither Bash non-printing marker occurs. -/
def noMarkers (s : String) : Prop :=
  ¬ (['\\', '['] <:+: s.data) ∧ ¬ (['\\', ']'] <:+: s.data)

theorem string_data_append (a b : String) : (a ++ b).data = a.data ++ b.data := rfl

theorem escScan_append (a b : List Char) (s : EscState) :
    escScan (a ++ b) s = escScan b (escScan a s) := by
  simp [escScan, List.foldl_append]

theorem escScan_out_clean (l : List Char) (h : ∀ c ∈ l, c ≠ '\\' ∧ c ≠ '\x1b') :
    escScan l EscState.out = EscState.out := by
  induction l with
  | nil => rfl
  | cons c cs ih =>
    have hc := h c (List.mem_cons_self c cs)
    have hstep : escStep EscState.out c = EscState.out := by
      simp [escStep, hc.1, hc.2]
    calc escScan (c :: cs) EscState.out
        = escScan cs (escStep EscState.out c) := rfl
      _ = escScan cs EscState.out := by rw [hstep]
      _ = EscState.out := ih (fun x hx => h x (List.mem_cons_of_mem c hx))

theorem escScan_ins_noBackslash (l : List Char) (h : ∀ c ∈ l, c ≠ '\\') :
    escScan l EscState.ins = EscState.ins := by
  induction l with
  | nil => rfl
  | cons c cs ih =>
    have hc := h c (List.mem_cons_self c cs)
    have hstep : escStep EscState.ins c = EscState.ins := by
      simp [escStep, hc]
    calc escScan (c :: cs) EscState.ins
        = escScan cs (escStep EscState.ins c) := rfl
      _ = escScan cs EscState.ins := by rw [hstep]
      _ = EscState.ins := ih (fun x hx => h x (List.mem_cons_of_mem c hx))

theorem noBackslash_append {a b : String} (ha : noBackslash a) (hb : noBackslash b) :
    noBackslash (a ++ b) := by
  intro c hc
  rw [string_data_append, List.mem_append] at hc
  rcases hc with hc | hc
  · exact ha c hc
  · exact hb c hc

theorem noBackslash_noMarkers {s : String} (h : noBackslash s) : noMarkers s := by
  constructor
  · intro hinf
    exact h '\\' (hinf.subset (List.mem_cons_self _ _)) rfl
  · intro hinf
    exact h '\\' (hinf.subset (List.mem_cons_self _ _)) rfl

theorem GitFlags.rank_inj : ∀ f g : GitFlags, f.rank = g.rank → f = g := by decide

theorem mem_insertFlag (g f : GitFlags) (l : List GitFlags) :
    g ∈ insertFlag f l ↔ g = f ∨ g ∈ l := by
  induction l with
  | nil => simp [insertFlag]
  | cons a as ih =>
    by_cases hlt : f.rank < a.rank
    · simp [insertFlag, hlt]
    · by_cases heq : f.rank = a.rank
      · have hfa : f = a := GitFlags.rank_inj f a heq
        subst hfa
        simp [insertFlag, hlt, heq]
      · simp [insertFlag, hlt, heq, ih]
        tauto

theorem mem_flagStep (g : GitFlags) (acc : List GitFlags) (s : Nat) :
    g ∈ flagStep acc s ↔ g ∈ acc ∨
      (g = GitFlags.Unversioned ∧ VcsCommand.is_unversioned s = true) ∨
      (g = GitFlags.Modified ∧ VcsCommand.is_working_tree_modified s = true) ∨
      (g = GitFlags.Added ∧ VcsCommand.is_index_modified s = true) := by
  unfold flagStep
  by_cases h1 : VcsCommand.is_unversioned s = true <;>
    by_cases h2 : VcsCommand.is_working_tree_modified s = true <;>
      by_cases h3 : VcsCommand.is_index_modified s = true <;>
        simp [h1, h2, h3, mem_insertFlag] <;> tauto

theorem mem_foldl_flagStep (g : GitFlags) (ss : List Nat) (acc : List GitFlags) :
    g ∈ ss.foldl flagStep acc ↔ g ∈ acc ∨
      ∃ s ∈ ss,
        (g = GitFlags.Unversioned ∧ VcsCommand.is_unversioned s = true) ∨
        (g = GitFlags.Modified ∧ VcsCommand.is_working_tree_modified s = true) ∨
        (g = GitFlags.Added ∧ VcsCommand.is_index_modified s = true) := by
  induction ss generalizing acc with
  | nil => simp
  | cons x xs ih =>
    rw [List.foldl_cons, ih, mem_flagStep]
    constructor
    · rintro ((h | h) | ⟨s, hs, h⟩)
      · exact Or.inl h
      · exact Or.inr ⟨x, List.mem_cons_self x xs, h⟩
      · exact Or.inr ⟨s, List.mem_cons_of_mem x hs, h⟩
    · rintro (h | ⟨s, hs, h⟩)
      · exact Or.inl (Or.inl h)
      · rcases List.mem_cons.mp hs with rfl | hs
        · exact Or.inl (Or.inr h)
        · exact Or.inr ⟨s, hs, h⟩

theorem mem_get_git_flags (g : GitFlags) (repo : Repository) :
    g ∈ VcsCommand.get_git_flags repo ↔
      (g = GitFlags.Unversioned ∧ ∃ ss ∈ repo.statuses, ∃ s ∈ ss, VcsCommand.is_unversioned s = true) ∨
      (g = GitFlags.Modified ∧ ∃ ss ∈ repo.statuses, ∃ s ∈ ss, VcsCommand.is_working_tree_modified s = true) ∨
      (g = GitFlags.Added ∧ ∃ ss ∈ repo.statuses, ∃ s ∈ ss, VcsCommand.is_index_modified s = true) ∨
      (g = GitFlags.Stashed ∧ VcsCommand.is_stashed repo = true) := by
  unfold VcsCommand.get_git_flags
  by_cases hst : VcsCommand.is_stashed repo = true
  · cases hs : repo.statuses with
    | none =>
      simp [hst, hs, mem_insertFlag]
    | some ss =>
      simp only [hst, if_pos, hs, mem_insertFlag, mem_foldl_flagStep, List.not_mem_nil,
        false_or, Option.mem_def, Option.some.injEq]
      constructor
      · rintro (rfl | ⟨s, hsmem, h | h | h⟩)
        · tauto
        · exact Or.inl ⟨h.1, ss, rfl, s, hsmem, h.2⟩
        · exact Or.inr (Or.inl ⟨h.1, ss, rfl, s, hsmem, h.2⟩)
        · exact Or.inr (Or.inr (Or.inl ⟨h.1, ss, rfl, s, hsmem, h.2⟩))
      · rintro (⟨rfl, ss2, hss2, s, hsmem, h⟩ | ⟨rfl, ss2, hss2, s, hsmem, h⟩ |
          ⟨rfl, ss2, hss2, s, hsmem, h⟩ | ⟨rfl, h⟩)
        · cases hss2; exact Or.inr ⟨s, hsmem, Or.inl ⟨rfl, h⟩⟩
        · cases hss2; exact Or.inr ⟨s, hsmem, Or.inr (Or.inl ⟨rfl, h⟩)⟩
        · cases hss2; exact Or.inr ⟨s, hsmem, Or.inr (Or.inr ⟨rfl, h⟩)⟩
        · exact Or.inl rfl
  · cases hs : repo.statuses with
    | none =>
      simp [hst, hs]
    | some ss =>
      simp only [hst, if_neg, Bool.not_eq_true, hs, mem_foldl_flagStep, List.not_mem_nil,
        false_or, Option.mem_def, Option.some.injEq]
      constructor
      · rintro ⟨s, hsmem, h | h | h⟩
        · exact Or.inl ⟨h.1, ss, rfl, s, hsmem, h.2⟩
        · exact Or.inr (Or.inl ⟨h.1, ss, rfl, s, hsmem, h.2⟩)
        · exact Or.inr (Or.inr (Or.inl ⟨h.1, ss, rfl, s, hsmem, h.2⟩))
      · rintro (⟨rfl, ss2, hss2, s, hsmem, h⟩ | ⟨rfl, ss2, hss2, s, hsmem, h⟩ |
          ⟨rfl, ss2, hss2, s, hsmem, h⟩ | ⟨rfl, h⟩)
        · cases hss2; exact ⟨s, hsmem, Or.inl ⟨rfl, h⟩⟩
        · cases hss2; exact ⟨s, hsmem, Or.inr (Or.inl ⟨rfl, h⟩)⟩
        · cases hss2; exact ⟨s, hsmem, Or.inr (Or.inr ⟨rfl, h⟩)⟩
        · simp [hst] at h

/-- A flag list that is some filter of the canonical (declaration-order)
enumeration, i.e. a BTreeSet iteration sequence. -/
def canonicalForm (l : List GitFlags) : Prop :=
  ∃ p : GitFlags → Bool, l = GitFlags.canonical.filter p

theorem insertFlag_filter (f : GitFlags) (p : GitFlags → Bool) :
    insertFlag f (GitFlags.canonical.filter p) =
      GitFlags.canonical.filter (fun g => p g || g == f) := by
  revert f p
  decide

theorem canonical_refilter (p : GitFlags → Bool) :
    GitFlags.canonical.filter p =
      GitFlags.canonical.filter (fun g => (GitFlags.canonical.filter p).contains g) := by
  revert p
  decide

theorem canonicalForm_nil : canonicalForm [] :=
  ⟨fun _ => false, by decide⟩

theorem canonicalForm_insertFlag (f : GitFlags) {l : List GitFlags}
    (h : canonicalForm l) : canonicalForm (insertFlag f l) := by
  obtain ⟨p, rfl⟩ := h
  exact ⟨fun g => p g || g == f, insertFlag_filter f p⟩

theorem canonicalForm_insertIf (c : Prop) [Decidable c] (f : GitFlags) {l : List GitFlags}
    (h : canonicalForm l) : canonicalForm (if c then insertFlag f l else l) := by
  split
  · exact canonicalForm_insertFlag f h
  · exact h

theorem canonicalForm_flagStep (acc : List GitFlags) (s : Nat)
    (h : canonicalForm acc) : canonicalForm (flagStep acc s) := by
  unfold flagStep
  exact canonicalForm_insertIf _ _ (canonicalForm_insertIf _ _ (canonicalForm_insertIf _ _ h))

theorem canonicalForm_foldl_flagStep (ss : List Nat) (acc : List GitFlags)
    (h : canonicalForm acc) : canonicalForm (ss.foldl flagStep acc) := by
  induction ss generalizing acc with
  | nil => exact h
  | cons x xs ih => exact ih _ (canonicalForm_flagStep acc x h)

theorem canonicalForm_get_git_flags (repo : Repository) :
    canonicalForm (VcsCommand.get_git_flags repo) := by
  unfold VcsCommand.get_git_flags
  cases hs : repo.statuses with
  | none => exact canonicalForm_insertIf _ _ canonicalForm_nil
  | some ss => exact canonicalForm_insertIf _ _ (canonicalForm_foldl_flagStep ss [] canonicalForm_nil)

theorem get_git_flags_canonical (repo : Repository) :
    VcsCommand.get_git_flags repo =
      GitFlags.canonical.filter (fun g => (VcsCommand.get_git_flags repo).contains g) := by
  obtain ⟨p, hp⟩ := canonicalForm_get_git_flags repo
  calc VcsCommand.get_git_flags repo
      = GitFlags.canonical.filter p := hp
    _ = GitFlags.canonical.filter
          (fun g => (GitFlags.canonical.filter p).contains g) := canonical_refilter p
    _ = GitFlags.canonical.filter
          (fun g => (VcsCommand.get_git_flags repo).contains g) := by rw [← hp]

theorem foldl_insertFlag_filter (dl : List GitFlags) (p : GitFlags → Bool) :
    dl.foldl (fun acc f => insertFlag f acc) (GitFlags.canonical.filter p) =
      GitFlags.canonical.filter (fun g => p g || dl.contains g) := by
  induction dl generalizing p with
  | nil =>
    have h : (fun g => p g || List.contains [] g) = p := by
      funext g
      simp [List.contains]
    rw [h]
    rfl
  | cons f rest ih =>
    rw [List.foldl_cons, insertFlag_filter, ih]
    have h : (fun g => (p g || g == f) || rest.contains g) =
        (fun g => p g || (f :: rest).contains g) := by
      funext g
      rw [List.contains_cons, Bool.or_assoc]
    rw [h]

theorem foldl_insertFlag_canonical (dl : List GitFlags) :
    dl.foldl (fun acc f => insertFlag f acc) [] =
      GitFlags.canonical.filter (fun g => dl.contains g) := by
  have h0 : ([] : List GitFlags) = GitFlags.canonical.filter (fun _ => false) := by decide
  rw [h0, foldl_insertFlag_filter]
  have : (fun g => false || dl.contains g) = (fun g => dl.contains g) := by
    funext g
    simp
  rw [this]

theorem mem_get_git_flags_some (g : GitFlags) (repo : Repository) (ss : List Nat)
    (hss : repo.statuses = some ss) :
    g ∈ VcsCommand.get_git_flags repo ↔
      (g = GitFlags.Unversioned ∧ ∃ s ∈ ss, VcsCommand.is_unversioned s = true) ∨
      (g = GitFlags.Modified ∧ ∃ s ∈ ss, VcsCommand.is_working_tree_modified s = true) ∨
      (g = GitFlags.Added ∧ ∃ s ∈ ss, VcsCommand.is_index_modified s = true) ∨
      (g = GitFlags.Stashed ∧ VcsCommand.is_stashed repo = true) := by
  rw [mem_get_git_flags]
  simp [hss]

theorem is_stashed_iff (repo : Repository) :
    VcsCommand.is_stashed repo = true ↔ repo.stashes ≠ [] := by
  unfold VcsCommand.is_stashed
  cases repo.stashes <;> simp

/-- Claim C1: a status entry whose bits include both a working-tree change and
an index change contributes both Modified and Added, and the final flag set is
exactly the union of the flags contributed by all scanned entries together with
the stash check — classification never stops after the first matching flag. -/
theorem c1_flags_union (repo : Repository) (ss : List Nat)
    (hss : repo.statuses = some ss) :
    (∀ s ∈ ss, VcsCommand.is_working_tree_modified s = true →
      VcsCommand.is_index_modified s = true →
      GitFlags.Modified ∈ VcsCommand.get_git_flags repo ∧
      GitFlags.Added ∈ VcsCommand.get_git_flags repo) ∧
    (∀ g, g ∈ VcsCommand.get_git_flags repo ↔
      (g = GitFlags.Unversioned ∧ ∃ s ∈ ss, VcsCommand.is_unversioned s = true) ∨
      (g = GitFlags.Modified ∧ ∃ s ∈ ss, VcsCommand.is_working_tree_modified s = true) ∨
      (g = GitFlags.Added ∧ ∃ s ∈ ss, VcsCommand.is_index_modified s = true) ∨
      (g = GitFlags.Stashed ∧ VcsCommand.is_stashed repo = true)) := by
  have hmem := fun g => mem_get_git_flags_some g repo ss hss
  refine ⟨?_, hmem⟩
  intro s hs hwt hidx
  exact ⟨(hmem _).mpr (Or.inr (Or.inl ⟨rfl, s, hs, hwt⟩)),
    (hmem _).mpr (Or.inr (Or.inr (Or.inl ⟨rfl, s, hs, hidx⟩)))⟩

/-- Claim C1 witness: a repository with one entry that is both staged-modified
and further working-tree-modified carries both flags. -/
theorem c1_flags_union_witness :
    GitFlags.Modified ∈ VcsCommand.get_git_flags ⟨none, some [258], []⟩ ∧
    GitFlags.Added ∈ VcsCommand.get_git_flags ⟨none, some [258], []⟩ :=
  (c1_flags_union ⟨none, some [258], []⟩ [258] rfl).1 258 (by decide) (by decide) (by decide)

/-- Claim C2: when the head of a discovered repository cannot be resolved,
vcs mode renders the empty string, even when the status query would have
produced flags — a displayed flag set without a branch label never occurs. -/
theorem c2_no_branch_no_output (pallet : Pallet) (repo : Repository)
    (h : VcsCommand.get_git_branch repo = none) :
    VcsCommand.run pallet (some repo) = "" := by
  have h1 : VcsCommand.run pallet (some repo) =
      (match VcsCommand.get_git_branch repo with
       | some b => VcsCommand.write_git_branch pallet b ++
           (if (VcsCommand.get_git_flags repo).isEmpty then ""
            else VcsCommand.write_git_status pallet (VcsCommand.get_git_flags repo))
       | none => "") := rfl
  rw [h1, h]

/-- Claim C2 witness: an unborn-head repository with a modified file and a
stash still renders nothing. -/
theorem c2_no_branch_no_output_witness :
    VcsCommand.run Pallet.default (some ⟨none, some [256], [5]⟩) = "" ∧
    VcsCommand.get_git_flags ⟨none, some [256], [5]⟩ ≠ [] :=
  ⟨c2_no_branch_no_output Pallet.default ⟨none, some [256], [5]⟩ rfl, by decide⟩

/-- Claim C4: when repository discovery fails, vcs mode renders the empty
string; absence of a repository is not an error. -/
theorem c4_no_repo_empty (pallet : Pallet) :
    VcsCommand.run pallet none = "" := rfl

/-- Claim C5: the Stashed flag is present iff the repository has at least one
stash entry, and the existence check gives the same answer for any two
repositories with at least one entry each (it never depends on how many). -/
theorem c5_stashed_iff (repo₁ repo₂ : Repository) :
    (GitFlags.Stashed ∈ VcsCommand.get_git_flags repo₁ ↔ repo₁.stashes ≠ []) ∧
    (repo₁.stashes ≠ [] → repo₂.stashes ≠ [] →
      VcsCommand.is_stashed repo₁ = VcsCommand.is_stashed repo₂) := by
  constructor
  · rw [mem_get_git_flags, ← is_stashed_iff]
    simp
  · intro h1 h2
    rw [(is_stashed_iff repo₁).mpr h1, (is_stashed_iff repo₂).mpr h2]

/-- Claim C5 witness: one stash entry and three stash entries agree, and the
one-entry repository carries the Stashed flag. -/
theorem c5_stashed_iff_witness :
    GitFlags.Stashed ∈ VcsCommand.get_git_flags ⟨none, none, [7]⟩ ∧
    VcsCommand.is_stashed ⟨none, none, [7]⟩ = VcsCommand.is_stashed ⟨none, none, [1, 2, 3]⟩ :=
  ⟨(c5_stashed_iff ⟨none, none, [7]⟩ ⟨none, none, [1, 2, 3]⟩).1.mpr (by decide),
    (c5_stashed_iff ⟨none, none, [7]⟩ ⟨none, none, [1, 2, 3]⟩).2 (by decide) (by decide)⟩

/-- Claim C8: when the status query fails, the scan contributes no flags, the
independent stash check still runs (so the set can still contain Stashed), the
branch label is still rendered, and no error text appears in the output. -/
theorem c8_status_failure_degrades (pallet : Pallet) (repo : Repository) (b : String)
    (hss : repo.statuses = none) (hb : VcsCommand.get_git_branch repo = some b) :
    VcsCommand.get_git_flags repo =
      (if VcsCommand.is_stashed repo then [GitFlags.Stashed] else []) ∧
    VcsCommand.run pallet (some repo) =
      VcsCommand.write_git_branch pallet b ++
        (if VcsCommand.is_stashed repo then
          VcsCommand.write_git_status pallet [GitFlags.Stashed] else "") := by
  have hflags : VcsCommand.get_git_flags repo =
      (if VcsCommand.is_stashed repo then [GitFlags.Stashed] else []) := by
    unfold VcsCommand.get_git_flags
    rw [hss]
    cases hst : VcsCommand.is_stashed repo <;> simp [hst, insertFlag]
  refine ⟨hflags, ?_⟩
  have h1 : VcsCommand.run pallet (some repo) =
      (match VcsCommand.get_git_branch repo with
       | some b => VcsCommand.write_git_branch pallet b ++
           (if (VcsCommand.get_git_flags repo).isEmpty then ""
            else VcsCommand.write_git_status pallet (VcsCommand.get_git_flags repo))
       | none => "") := rfl
  rw [h1, hb]
  cases hst : VcsCommand.is_stashed repo <;> simp [hst, hflags, insertFlag]

/-- Claim C8 witness: failed status query, resolvable branch, one stash. -/
theorem c8_status_failure_degrades_witness :
    VcsCommand.get_git_flags ⟨some ⟨true, some "main", none⟩, none, [9]⟩ = [GitFlags.Stashed] ∧
    VcsCommand.run Pallet.default (some ⟨some ⟨true, some "main", none⟩, none, [9]⟩) =
      VcsCommand.write_git_branch Pallet.default "main" ++
        VcsCommand.write_git_status Pallet.default [GitFlags.Stashed] := by
  have h := c8_status_failure_degrades Pallet.default
    ⟨some ⟨true, some "main", none⟩, none, [9]⟩ "main" rfl rfl
  exact ⟨h.1, h.2⟩

/-- Claim C3: however flags are discovered and inserted, a BTreeSet iteration
sequence is the canonical declaration-order list filtered by membership, so
the glyph run of a computed flag set is always in the fixed ? ! + $ order,
each glyph at most once. -/
theorem c3_canonical_order :
    (∀ dl : List GitFlags, dl.foldl (fun acc f => insertFlag f acc) [] =
      GitFlags.canonical.filter (fun g => dl.contains g)) ∧
    (∀ repo : Repository, VcsCommand.get_git_flags repo =
      GitFlags.canonical.filter (fun g => (VcsCommand.get_git_flags repo).contains g)) ∧
    (∀ repo : Repository, (VcsCommand.get_git_flags repo).Nodup) ∧
    (∀ repo : Repository, flagStr (VcsCommand.get_git_flags repo) =
      flagStr (GitFlags.canonical.filter (fun g => (VcsCommand.get_git_flags repo).contains g))) ∧
    flagStr GitFlags.canonical = "?!+$" := by
  refine ⟨foldl_insertFlag_canonical, get_git_flags_canonical, ?_, ?_, by decide⟩
  · intro repo
    rw [get_git_flags_canonical]
    exact List.Nodup.filter _ (by decide)
  · intro repo
    exact congrArg flagStr (get_git_flags_canonical repo)

/-- Claim C6: with a detached head pointing at commit c, the branch label is
the full 40-hex-character form of c, and with a named-branch head it is the
short branch name. -/
theorem c6_branch_label (repo : Repository) (r : GitRef)
    (h : repo.headRef = some r) :
    (r.is_branch = false → ∀ c, r.peel_to_commit = some c →
      VcsCommand.get_git_branch repo = some (oidToString c) ∧
      (oidToString c).length = 40 ∧
      ∀ ch ∈ (oidToString c).data, ch ∈ ("0123456789abcdef").data) ∧
    (r.is_branch = true → VcsCommand.get_git_branch repo = r.shorthand) := by
  constructor
  · intro hbr c hc
    refine ⟨?_, ?_, ?_⟩
    · unfold VcsCommand.get_git_branch
      rw [h]
      simp [hbr, hc]
    · show ((List.range 40).map (fun i => hexDigit (c / 16 ^ (39 - i) % 16))).length = 40
      simp
    · intro ch hch
      have hch2 : ch ∈ (List.range 40).map (fun i => hexDigit (c / 16 ^ (39 - i) % 16)) := hch
      obtain ⟨i, _, rfl⟩ := List.mem_map.mp hch2
      have h16 : c / 16 ^ (39 - i) % 16 < 16 := Nat.mod_lt _ (by decide)
      revert h16
      generalize c / 16 ^ (39 - i) % 16 = k
      revert k
      decide
  · intro hbr
    unfold VcsCommand.get_git_branch
    rw [h]
    simp [hbr]

/-- Claim C6 witness: detached head at a concrete commit id. -/
theorem c6_branch_label_witness :
    VcsCommand.get_git_branch ⟨some ⟨false, none, some 11259375⟩, none, []⟩ =
      some (oidToString 11259375) ∧
    (oidToString 11259375).length = 40 :=
  ⟨((c6_branch_label ⟨some ⟨false, none, some 11259375⟩, none, []⟩
      ⟨false, none, some 11259375⟩ rfl).1 rfl 11259375 rfl).1,
   ((c6_branch_label ⟨some ⟨false, none, some 11259375⟩, none, []⟩
      ⟨false, none, some 11259375⟩ rfl).1 rfl 11259375 rfl).2.1⟩

/-- Claim C9: the xprompt binary always prints its rendered string and exits
with status 0 once arguments parsed, in every mode and environment; but the
prototype prompter binary (src/main.rs) exits with status 1 when run outside
any git repository, although its arguments parsed — the acknowledged TODO slip
the claim contradicts. -/
theorem c9_exit_status :
    (∀ (cmd : SubCommand) (env : ProcEnv), (xprompt_main cmd env).2 = 0) ∧
    prompter_main none
      { discovered := none, timestamp := "12:00:00", user := none, host := none, cwd := none } =
      ProcResult.exited 1 :=
  ⟨fun _ _ => rfl, rfl⟩

/-- Claim C10: ps2 output ignores the environment entirely and equals the
fixed yellow-bold continuation glyph wrapped in Bash non-printing markers. -/
theorem c10_ps2_constant :
    (∀ e₁ e₂ : ProcEnv, (xprompt_main SubCommand.ps2 e₁).1 = (xprompt_main SubCommand.ps2 e₂).1) ∧
    Ps2Command.run Pallet.default = bashStringRender (fixedBold 136) "-> " ∧
    Ps2Command.run Pallet.default = "\\[\x1b[1;38;5;136m\\]-> \\[\x1b[0m\\]" :=
  ⟨fun _ _ => rfl, rfl, by decide⟩

/-- Payload text that is safe in a Bash prompt template: it carries neither a
backslash nor a styling escape byte. -/
def cleanText (s : String) : Prop :=
  ∀ c ∈ s.data, c ≠ '\\' ∧ c ≠ '\x1b'

instance cleanText.dec (s : String) : Decidable (cleanText s) :=
  inferInstanceAs (Decidable (∀ c ∈ s.data, c ≠ '\\' ∧ c ≠ '\x1b'))

instance noBackslash.dec (s : String) : Decidable (noBackslash s) :=
  inferInstanceAs (Decidable (∀ c ∈ s.data, c ≠ '\\'))

theorem escScan_bashStringRender (st : Style) (s : String)
    (hpre : ∀ c ∈ (stylePre st).data, c ≠ '\\')
    (hsuf : ∀ c ∈ (styleSuf st).data, c ≠ '\\')
    (hs : ∀ c ∈ s.data, c ≠ '\\' ∧ c ≠ '\x1b') :
    escScan (bashStringRender st s).data EscState.out = EscState.out := by
  unfold bashStringRender
  simp only [string_data_append, escScan_append]
  rw [show escScan ("\\[" : String).data EscState.out = EscState.ins from by decide]
  rw [escScan_ins_noBackslash _ hpre]
  rw [show escScan ("\\]" : String).data EscState.ins = EscState.out from by decide]
  rw [escScan_out_clean _ hs]
  rw [show escScan ("\\[" : String).data EscState.out = EscState.ins from by decide]
  rw [escScan_ins_noBackslash _ hsuf]
  decide

theorem noBackslash_join (l : List String) : ∀ acc : String, noBackslash acc →
    (∀ s ∈ l, noBackslash s) → noBackslash (l.foldl (fun r s => r ++ s) acc) := by
  induction l with
  | nil =>
    intro acc hacc _
    exact hacc
  | cons x xs ih =>
    intro acc hacc h
    exact ih _ (noBackslash_append hacc (h x (List.mem_cons_self x xs)))
      (fun s hs => h s (List.mem_cons_of_mem x hs))

theorem noBackslash_flagStr (flags : List GitFlags) : noBackslash (flagStr flags) := by
  have h : flagStr flags = (flags.map GitFlags.val).foldl (fun r s => r ++ s) "" := rfl
  rw [h]
  apply noBackslash_join _ _ (by decide)
  intro s hs
  obtain ⟨f, _, rfl⟩ := List.mem_map.mp hs
  cases f <;> decide

theorem noBackslash_write_git_branch (b : String) (hb : noBackslash b) :
    noBackslash (VcsCommand.write_git_branch Pallet.default b) := by
  show noBackslash
    (((stylePre Pallet.default.white ++ "on ") ++
        ((styleTransition Pallet.default.white Pallet.default.violet ++ b) ++ "")) ++
      styleSuf Pallet.default.violet)
  exact noBackslash_append
    (noBackslash_append (noBackslash_append (by decide) (by decide))
      (noBackslash_append (noBackslash_append (by decide) hb) (by decide)))
    (by decide)

theorem noBackslash_write_git_status (flags : List GitFlags) :
    noBackslash (VcsCommand.write_git_status Pallet.default flags) := by
  show noBackslash
    (((stylePre Pallet.default.blue ++ " [") ++
        ((styleTransition Pallet.default.blue Pallet.default.blue ++ flagStr flags) ++
          ((styleTransition Pallet.default.blue Pallet.default.blue ++ "]") ++ ""))) ++
      styleSuf Pallet.default.blue)
  exact noBackslash_append
    (noBackslash_append (noBackslash_append (by decide) (by decide))
      (noBackslash_append (noBackslash_append (by decide) (noBackslash_flagStr flags))
        (noBackslash_append (noBackslash_append (by decide) (by decide)) (by decide))))
    (by decide)

set_option maxRecDepth 40000 in
/-- Claim C7: in ps1 mode every styling escape byte of the output sits inside
a paired non-printing-marker region (the scanner over the whole rendered
prompt starts and ends outside a region and never hits an escape byte outside
one, and escape bytes do occur), while vcs-mode output carries no marker at
all around its color codes. -/
theorem c7_escaping :
    (∀ (cmd : Ps1Command) (exe : Option String),
      cleanText cmd.input → cleanText (cmd.callback exe) →
      escScan (cmd.run Pallet.default exe).data EscState.out = EscState.out ∧
      '\x1b' ∈ (cmd.run Pallet.default exe).data) ∧
    (∀ repo : Repository,
      (∀ b, VcsCommand.get_git_branch repo = some b → noBackslash b) →
      noMarkers (VcsCommand.run Pallet.default (some repo))) := by
  constructor
  · intro cmd exe hinp hcb
    constructor
    · show escScan (Ps1Command.write_base_prompt Pallet.default ++
          Ps1Command.write_vcs_callback (cmd.callback exe) ++
          Ps1Command.write_command_prompt Pallet.default cmd.input).data EscState.out =
          EscState.out
      rw [string_data_append, string_data_append, escScan_append, escScan_append]
      rw [show escScan (Ps1Command.write_base_prompt Pallet.default).data EscState.out =
        EscState.out from by decide]
      have hB : escScan (Ps1Command.write_vcs_callback (cmd.callback exe)).data
          EscState.out = EscState.out := by
        unfold Ps1Command.write_vcs_callback
        rw [string_data_append, string_data_append, escScan_append, escScan_append]
        rw [show escScan (" $(" : String).data EscState.out = EscState.out from by decide]
        rw [escScan_out_clean _ hcb]
        decide
      rw [hB]
      unfold Ps1Command.write_command_prompt
      rw [string_data_append, string_data_append, escScan_append, escScan_append]
      rw [show escScan ("\\n" : String).data EscState.out = EscState.out from by decide]
      rw [escScan_bashStringRender _ _ (by decide) (by decide) hinp]
      decide
    · show '\x1b' ∈ (Ps1Command.write_base_prompt Pallet.default ++
          Ps1Command.write_vcs_callback (cmd.callback exe) ++
          Ps1Command.write_command_prompt Pallet.default cmd.input).data
      rw [string_data_append, string_data_append]
      exact List.mem_append_left _ (List.mem_append_left _ (by decide))
  · intro repo hb
    have h1 : VcsCommand.run Pallet.default (some repo) =
        (match VcsCommand.get_git_branch repo with
         | some b => VcsCommand.write_git_branch Pallet.default b ++
             (if (VcsCommand.get_git_flags repo).isEmpty then ""
              else VcsCommand.write_git_status Pallet.default (VcsCommand.get_git_flags repo))
         | none => "") := rfl
    rw [h1]
    cases hgb : VcsCommand.get_git_branch repo with
    | none => exact noBackslash_noMarkers (fun c hc => absurd hc (List.not_mem_nil c))
    | some b =>
      apply noBackslash_noMarkers
      apply noBackslash_append (noBackslash_write_git_branch b (hb b hgb))
      split
      · decide
      · exact noBackslash_write_git_status (VcsCommand.get_git_flags repo)

set_option maxRecDepth 40000 in
/-- Claim C7 witness: concrete ps1 invocation and a clean-branch repository. -/
theorem c7_escaping_witness :
    (escScan ((Ps1Command.mk (some "/usr/local/bin/xprompt") "$").run
        Pallet.default none).data EscState.out = EscState.out ∧
      '\x1b' ∈ ((Ps1Command.mk (some "/usr/local/bin/xprompt") "$").run
        Pallet.default none).data) ∧
    noMarkers (VcsCommand.run Pallet.default
      (some ⟨some ⟨true, some "main", none⟩, some [128, 258], [4]⟩)) := by
  constructor
  · exact c7_escaping.1 (Ps1Command.mk (some "/usr/local/bin/xprompt") "$") none
      (by decide) (by decide)
  · apply c7_escaping.2
    intro b hbm
    have hb2 : some "main" = some b := hbm
    cases hb2
    decide
